import Mathlib

set_option maxRecDepth 4000

/-!
Verification of the Jokebook HTTP API repository.

The repository is a layered Express application: router → controller → model,
backed by PostgreSQL tables `categories(id, name UNIQUE)` and
`jokes(id, setup, delivery/punchline, category_id, created_at)`.

We shallowly embed the relevant model and controller functions over an
explicit database state.  The store engine (PostgreSQL) is external: its
primitive statements (SELECT / INSERT / INSERT ON CONFLICT / UPDATE / DELETE)
are embedded as atomic operations on the state, and the `BEGIN/COMMIT/ROLLBACK`
session discipline of the transactional variant is embedded by buffering the
transaction's writes and publishing them only on commit, exactly as the
source drives the engine.  Query failures are modelled by an injected
predicate `failAt : Nat → Bool` saying which of the function's own statements
fails (the engine may fail any statement).

Embedded source functions:
* `TxModel`    — `src/unnamed/part_007` (pg model: transactional `addJoke`
  with `INSERT ... ON CONFLICT (name) DO UPDATE ... RETURNING id` and
  `toLowerCase`, `getJokesByCategoryId` with default limit 100 and
  `ORDER BY created_at DESC`, `getRandomJoke`).
* `NontxModel` — `src/jokeModel.js` (plain pool model: select-then-insert
  category resolution, no transaction, `addJoke` returns the category's
  joke listing).
* `CtrlV3`     — the third controller variant in `src/unnamed/part_003`
  (`addJoke` body validation, `getRandomJoke` 404/200 mapping).
* `CtrlV2`     — `src/unnamed/part_006` (`getJokesByCategoryId` mapping
  an empty listing to a single 404 message).
* `MemCtrl`    — `src/unnamed/part_004` (in-memory controller that
  distinguishes "category not found" from "no jokes in category").
* `PgModel` / `CtrlV1` — `src/unnamed/part_008` model `updateJoke` /
  `deleteJoke` and the first controller variant in `src/unnamed/part_003`.
-/

/-- A row of the `categories` table. -/
structure Category where
  id : Nat
  name : String
deriving DecidableEq, Repr

/-- A row of the `jokes` table (part_007 schema: `setup`, `delivery`,
`category_id`, `created_at`). -/
structure Joke where
  id : Nat
  category_id : Nat
  setup : String
  delivery : String
  created_at : Nat
deriving DecidableEq, Repr

/-- The database state: both tables plus the store-internal id sequences and
the clock used for `created_at DEFAULT now()`. -/
structure DB where
  categories : List Category
  jokes : List Joke
  nextCatId : Nat
  nextJokeId : Nat
  clock : Nat
deriving DecidableEq, Repr

/-- Store invariants guaranteed by the engine: primary keys are unique and
below the id sequences, category names are unique (`name UNIQUE` constraint),
and every joke's `category_id` references an existing category (FK). -/
def DB.WF (db : DB) : Prop :=
  db.categories.Pairwise (fun a b => a.id ≠ b.id ∧ a.name ≠ b.name) ∧
  db.jokes.Pairwise (fun a b => a.id ≠ b.id) ∧
  (∀ c ∈ db.categories, c.id < db.nextCatId) ∧
  (∀ j ∈ db.jokes, j.id < db.nextJokeId) ∧
  (∀ j ∈ db.jokes, ∃ c ∈ db.categories, c.id = j.category_id)

instance (db : DB) : Decidable db.WF := by
  unfold DB.WF; infer_instance

/-- `SELECT id FROM categories WHERE name = $1` (first matching row). -/
def findCategoryByName (db : DB) (name : String) : Option Category :=
  db.categories.find? (fun c => c.name = name)

/-- `INSERT INTO categories (name) VALUES ($1) RETURNING id`:
appends a fresh row and returns its generated id. -/
def insertCategory (db : DB) (name : String) : DB × Nat :=
  ({ db with
      categories := db.categories ++ [⟨db.nextCatId, name⟩],
      nextCatId := db.nextCatId + 1 },
   db.nextCatId)

/-- `INSERT INTO jokes (category_id, setup, delivery) VALUES ($1,$2,$3)
RETURNING id`: appends a fresh row stamped with the current clock. -/
def insertJoke (db : DB) (categoryId : Nat) (setup delivery : String) :
    DB × Nat :=
  ({ db with
      jokes := db.jokes ++ [⟨db.nextJokeId, categoryId, setup, delivery, db.clock⟩],
      nextJokeId := db.nextJokeId + 1,
      clock := db.clock + 1 },
   db.nextJokeId)

/-- `INSERT INTO categories (name) VALUES ($1) ON CONFLICT (name) DO UPDATE
SET name = EXCLUDED.name RETURNING id`: insert-or-get on the unique name. -/
def upsertCategory (db : DB) (name : String) : DB × Nat :=
  match findCategoryByName db name with
  | some c => (db, c.id)
  | none => insertCategory db name

/-- A failure-injection predicate that fails nothing. -/
def noFail : Nat → Bool := fun _ => false

/-- JS `String.prototype.toLowerCase()`: lowercases character by
character. -/
def jsToLowerCase (s : String) : String := ⟨s.data.map Char.toLower⟩

/-- Outcome of a model call: a returned value, or a raised error (the JS
functions signal store failure by throwing). -/
inductive QRes (α : Type) where
  | ok (value : α)
  | err
deriving DecidableEq, Repr

/-- Insert `x` into `l` in front of the first element `y` with `le x y`
(insertion step of the sort used to embed SQL `ORDER BY`). -/
def insertLe {α : Type} (le : α → α → Bool) (x : α) : List α → List α
  | [] => [x]
  | y :: ys => if le x y then x :: y :: ys else y :: insertLe le x ys

/-- Insertion sort by the comparison `le`; embeds SQL `ORDER BY`. -/
def sortBy {α : Type} (le : α → α → Bool) : List α → List α
  | [] => []
  | x :: xs => insertLe le x (sortBy le xs)

theorem insertLe_perm {α : Type} (le : α → α → Bool) (x : α) (l : List α) :
    (insertLe le x l).Perm (x :: l) := by
  induction l with
  | nil => exact List.Perm.refl _
  | cons y ys ih =>
    unfold insertLe
    cases le x y
    · simp only [Bool.false_eq_true, if_false]
      exact ((ih.cons y).trans (List.Perm.swap x y ys))
    · simp

theorem sortBy_perm {α : Type} (le : α → α → Bool) (l : List α) :
    (sortBy le l).Perm l := by
  induction l with
  | nil => exact List.Perm.refl _
  | cons x xs ih =>
    exact (insertLe_perm le x (sortBy le xs)).trans (ih.cons x)

theorem insertLe_pairwise {α : Type} (le : α → α → Bool)
    (htot : ∀ a b, le a b = true ∨ le b a = true)
    (htrans : ∀ a b c, le a b = true → le b c = true → le a c = true)
    (x : α) (l : List α)
    (hl : l.Pairwise (fun a b => le a b = true)) :
    (insertLe le x l).Pairwise (fun a b => le a b = true) := by
  induction l with
  | nil => simp [insertLe]
  | cons y ys ih =>
    rcases List.pairwise_cons.mp hl with ⟨hy, hys⟩
    unfold insertLe
    cases hxy : le x y
    · simp only [Bool.false_eq_true, if_false]
      refine List.pairwise_cons.mpr ⟨?_, ih hys⟩
      intro a ha
      have ha2 := (insertLe_perm le x ys).mem_iff.mp ha
      rcases List.mem_cons.mp ha2 with ha3 | ha3
      · cases ha3
        rcases htot x y with h | h
        · rw [h] at hxy; cases hxy
        · exact h
      · exact hy a ha3
    · simp only [if_true]
      refine List.pairwise_cons.mpr ⟨?_, hl⟩
      intro a ha
      rcases List.mem_cons.mp ha with ha3 | ha3
      · cases ha3; exact hxy
      · exact htrans x y a hxy (hy a ha3)

theorem sortBy_pairwise {α : Type} (le : α → α → Bool)
    (htot : ∀ a b, le a b = true ∨ le b a = true)
    (htrans : ∀ a b c, le a b = true → le b c = true → le a c = true)
    (l : List α) :
    (sortBy le l).Pairwise (fun a b => le a b = true) := by
  induction l with
  | nil => simp [sortBy]
  | cons x xs ih => exact insertLe_pairwise le htot htrans x _ ih


namespace TxModel

/-- The joke object returned by part_007's `addJoke` and listing queries
(`id`, category `name`, `setup`, `delivery`). -/
structure JokeRow where
  id : Nat
  category : String
  setup : String
  delivery : String
deriving DecidableEq, Repr

/-- part_007 `addJoke`: one transaction on a single client.
Statement 0 is the category upsert (on the lowercased name), statement 1 the
joke insert, statement 2 the commit.  Writes are buffered in the transaction
view and published only by the commit; every failure path rolls back, i.e.
the published state stays `db`. -/
def addJoke (db : DB) (categoryName setup delivery : String)
    (failAt : Nat → Bool) : DB × QRes JokeRow :=
  if failAt 0 then (db, .err) else
  let r1 := upsertCategory db (jsToLowerCase categoryName)
  if failAt 1 then (db, .err) else
  let r2 := insertJoke r1.1 r1.2 setup delivery
  if failAt 2 then (db, .err) else
  (r2.1, .ok ⟨r2.2, (jsToLowerCase categoryName), setup, delivery⟩)

end TxModel

namespace NontxModel

/-- A row of `SELECT j.setup, j.delivery` in jokeModel.js. -/
structure Row where
  setup : String
  delivery : String
deriving DecidableEq, Repr

/-- The unsorted join of jokeModel.js `getJokesByCategory`:
`FROM jokes j JOIN categories c ON j.category_id = c.id
WHERE c.name = $1`. -/
def rawJoinByCategory (db : DB) (category : String) :
    List (Joke × Category) :=
  db.jokes.flatMap (fun j =>
    (db.categories.filter (fun c => c.id = j.category_id ∧ c.name = category)).map
      (fun c => (j, c)))

/-- The join underlying jokeModel.js `getJokesByCategory`, with its
`ORDER BY j.id`. -/
def joinByCategory (db : DB) (category : String) : List (Joke × Category) :=
  sortBy (fun a b => a.1.id ≤ b.1.id) (rawJoinByCategory db category)

/-- jokeModel.js `getJokesByCategory`: runs the join, applies the optional
`LIMIT`, and — when the result is empty — falls into the broken category
check `pool.query('SELECT ...'[category])`, which always raises and is
re-thrown as `Could not fetch jokes from the database.` (so the empty case is
an error, never an empty success). -/
def getJokesByCategory (db : DB) (category : String) (limit : Option Nat) :
    QRes (List Row) :=
  let rows :=
    match limit with
    | some l => (joinByCategory db category).take l
    | none => joinByCategory db category
  if rows.isEmpty then .err
  else .ok (rows.map (fun p => ⟨p.1.setup, p.1.delivery⟩))

/-- jokeModel.js `addJoke`: no transaction — each statement commits
immediately on the shared pool.  Statement 0 is the category `SELECT`,
statement 1 the category `INSERT` (only when absent) or the joke `INSERT`
(when present), statement 2 the joke `INSERT` after a category creation.
On success it returns `getJokesByCategory(category)` — the category's whole
joke listing.  A failure after the category insert leaves that row behind. -/
def addJoke (db : DB) (setup delivery category : String)
    (failAt : Nat → Bool) : DB × QRes (List Row) :=
  if failAt 0 then (db, .err) else
  match findCategoryByName db category with
  | some c =>
    if failAt 1 then (db, .err) else
    let r := insertJoke db c.id setup delivery
    (r.1, getJokesByCategory r.1 category none)
  | none =>
    if failAt 1 then (db, .err) else
    let rc := insertCategory db category
    if failAt 2 then (rc.1, .err) else
    let rj := insertJoke rc.1 rc.2 setup delivery
    (rj.1, getJokesByCategory rj.1 category none)

end NontxModel

/-- The empty freshly-initialized database (SERIAL sequences start at 1). -/
def emptyDB : DB := ⟨[], [], 1, 1, 0⟩

/-- C1: The model's create-joke operation (addJoke) performs the
find-or-create-category-then-insert-joke sequence as one atomic unit: for
every execution in which any step of the sequence fails, the entire
operation rolls back and no partial row is left in either table.

As stated over both cited `addJoke` implementations this is FALSE: the
non-transactional `src/jokeModel.js` variant leaves the freshly created
category row behind when the subsequent joke insert fails.  Concretely, on
the empty database, adding a joke under the new category "puns" with the
joke-insert statement failing ends in an error, yet the final state contains
the category row `(1, "puns")` that the failed call created (and no joke). -/
theorem nontx_addJoke_leaves_category_on_joke_insert_failure :
    (NontxModel.addJoke emptyDB "why" "because" "puns" (fun k => k == 2)).2
        = .err ∧
    (NontxModel.addJoke emptyDB "why" "because" "puns" (fun k => k == 2)).1.categories
        = [⟨1, "puns"⟩] ∧
    emptyDB.categories = [] := by
  decide

/-- C1 (amended): the transactional store-backed `addJoke`
(`src/unnamed/part_007`) is atomic: whenever any of its statements (category
upsert, joke insert, commit) fails, the operation returns an error and the
published database state is exactly the original — no joke row inserted and
no category row created by the failed call remaining. -/
theorem tx_addJoke_atomic_on_failure (db : DB)
    (categoryName setup delivery : String) (failAt : Nat → Bool)
    (h : failAt 0 = true ∨ failAt 1 = true ∨ failAt 2 = true) :
    TxModel.addJoke db categoryName setup delivery failAt = (db, .err) := by
  unfold TxModel.addJoke
  rcases h with h0 | h1 | h2
  · simp [h0]
  · cases hf0 : failAt 0 <;> simp [hf0, h1]
  · cases hf0 : failAt 0 <;> cases hf1 : failAt 1 <;> simp [hf0, hf1, h2]

/-- Witness for C1's amended theorem at a concrete input. -/
theorem tx_addJoke_atomic_on_failure_witness :
    (((fun k => k == 1) : Nat → Bool) 0 = true ∨
      ((fun k => k == 1) : Nat → Bool) 1 = true ∨
      ((fun k => k == 1) : Nat → Bool) 2 = true) ∧
    TxModel.addJoke emptyDB "Puns" "why" "because" (fun k => k == 1)
      = (emptyDB, .err) :=
  ⟨Or.inr (Or.inl (by decide)),
   tx_addJoke_atomic_on_failure emptyDB "Puns" "why" "because" _
     (Or.inr (Or.inl (by decide)))⟩

namespace TxModel

/-- part_007 `getRandomJoke`: `SELECT j.id, c.name as category, j.setup,
j.delivery FROM jokes j JOIN categories c ON j.category_id = c.id
ORDER BY RANDOM() LIMIT 1`, then `result.rows[0] || null`.
The store-side shuffle is modelled by an arbitrary pick index `r` into the
joined rows; an empty join yields `null`. -/
def getRandomJoke (db : DB) (r : Nat) : Option JokeRow :=
  let joined := db.jokes.flatMap (fun j =>
    (db.categories.filter (fun c => c.id = j.category_id)).map (fun c => (j, c)))
  (joined.get? (r % joined.length)).map
    (fun p => ⟨p.1.id, p.2.name, p.1.setup, p.1.delivery⟩)

end TxModel

namespace CtrlV3

/-- JS truthiness of an incoming JSON string field: falsy when the field is
absent (`undefined`) or the empty string.  A whitespace-only string is
truthy. -/
def falsy (o : Option String) : Bool := o.getD "" = ""

/-- Response shape of part_003's (third variant) `addJoke` controller:
HTTP status plus the JSON body fields it may set. -/
structure RespA where
  status : Nat
  message : Option String
  joke : Option TxModel.JokeRow
  error : Option String
deriving DecidableEq, Repr

/-- part_003 (third variant) `addJoke` controller: destructures
`{category, setup, delivery}` from the body; responds 400 with a fixed
message when any field is falsy (JS truthiness — no trimming), before any
model call; otherwise calls the model's `addJoke` and maps success to 201
with the created joke and a thrown model error to 500. -/
def addJoke (db : DB) (category setup delivery : Option String)
    (failAt : Nat → Bool) : DB × RespA :=
  if falsy category || falsy setup || falsy delivery then
    (db, ⟨400, none, none,
      some "Missing required fields: category, setup, and delivery."⟩)
  else
    match TxModel.addJoke db (category.getD "") (setup.getD "")
        (delivery.getD "") failAt with
    | (db1, .ok j) =>
      (db1, ⟨201, some "Joke added successfully!", some j, none⟩)
    | (db1, .err) =>
      (db1, ⟨500, none, none,
        some "Failed to add joke due to a database error."⟩)

/-- Response shape of part_003's (third variant) `getRandomJoke` controller. -/
structure RespR where
  status : Nat
  joke : Option TxModel.JokeRow
  error : Option String
deriving DecidableEq, Repr

/-- part_003 (third variant) `getRandomJoke` controller: a `null` from the
model becomes 404 with an error body, a joke becomes 200 with the joke. -/
def getRandomJoke (db : DB) (r : Nat) : RespR :=
  match TxModel.getRandomJoke db r with
  | none => ⟨404, none, some "No jokes available in the database."⟩
  | some j => ⟨200, some j, none⟩

end CtrlV3

/-- C3: the claim says a field that is empty after trimming is rejected with
400 and the store is not mutated.  FALSE: the controller's check is JS
truthiness, which does not trim — a whitespace-only `setup` (`" "`) passes
validation, the model is invoked, the response is 201, and the store gains a
row. -/
theorem addJoke_whitespace_passes_validation :
    (CtrlV3.addJoke emptyDB (some "puns") (some " ") (some "because")
        noFail).2.status = 201 ∧
    (CtrlV3.addJoke emptyDB (some "puns") (some " ") (some "because")
        noFail).1 ≠ emptyDB ∧
    (CtrlV3.addJoke emptyDB (some "puns") (some " ") (some "because")
        noFail).1.jokes.length = 1 := by
  decide

/-- C3 (amended): for every `addJoke` request body in which any of
`category`, `setup`, `delivery` is absent or the empty string (JS-falsy —
whitespace-only values are NOT rejected), the controller responds 400 with
the fixed message naming the required fields and performs no model call: the
store state is returned unchanged. -/
theorem addJoke_validation_rejects_missing_or_empty (db : DB)
    (category setup delivery : Option String) (failAt : Nat → Bool)
    (h : CtrlV3.falsy category = true ∨ CtrlV3.falsy setup = true ∨
      CtrlV3.falsy delivery = true) :
    CtrlV3.addJoke db category setup delivery failAt =
      (db, ⟨400, none, none,
        some "Missing required fields: category, setup, and delivery."⟩) := by
  unfold CtrlV3.addJoke
  rcases h with h | h | h <;> simp [h]

/-- Witness for C3's amended theorem at a concrete input (absent category). -/
theorem addJoke_validation_rejects_missing_or_empty_witness :
    (CtrlV3.falsy none = true ∨ CtrlV3.falsy (some "why") = true ∨
      CtrlV3.falsy (some "") = true) ∧
    CtrlV3.addJoke emptyDB none (some "why") (some "") noFail =
      (emptyDB, ⟨400, none, none,
        some "Missing required fields: category, setup, and delivery."⟩) :=
  ⟨Or.inl (by decide),
   addJoke_validation_rejects_missing_or_empty emptyDB none (some "why")
     (some "") noFail (Or.inl (by decide))⟩

/-- A database whose category `puns` (id 1) already holds one joke. -/
def dbOneJoke : DB := ⟨[⟨1, "puns"⟩], [⟨1, 1, "s0", "d0", 0⟩], 2, 2, 1⟩

/-- C7: the claim — the model's create operation returns the single newly
inserted joke, not some other shape such as a list of the category's jokes —
is FALSE for the cited `src/jokeModel.js` `addJoke`: on a database whose
category "puns" already holds one joke, a successful `addJoke` returns the
category's full two-row listing (setup/delivery projections, without the
generated id), the first row being the pre-existing joke. -/
theorem nontx_addJoke_returns_category_list :
    (NontxModel.addJoke dbOneJoke "s1" "d1" "puns" noFail).2 =
      .ok [⟨"s0", "d0"⟩, ⟨"s1", "d1"⟩] ∧
    dbOneJoke.jokes.length = 1 := by
  decide

/-- Upserting a category changes neither the jokes table nor the joke id
sequence nor the clock. -/
theorem upsertCategory_fst_jokes (db : DB) (n : String) :
    (upsertCategory db n).1.jokes = db.jokes ∧
    (upsertCategory db n).1.nextJokeId = db.nextJokeId ∧
    (upsertCategory db n).1.clock = db.clock := by
  unfold upsertCategory insertCategory
  cases findCategoryByName db n <;> simp

/-- C7 (amended): for every valid `addJoke` request (all three fields
JS-truthy) against the transactional model (part_007), the controller
responds 201 with the single created joke object whose id is the
store-generated `nextJokeId`, and a joke row with that id and those fields
is in the store afterwards. -/
theorem tx_addJoke_returns_created_joke_with_id (db : DB)
    (category setup delivery : Option String)
    (hc : CtrlV3.falsy category = false) (hs : CtrlV3.falsy setup = false)
    (hd : CtrlV3.falsy delivery = false) :
    ∃ db1 j,
      CtrlV3.addJoke db category setup delivery noFail =
        (db1, ⟨201, some "Joke added successfully!", some j, none⟩) ∧
      j.id = db.nextJokeId ∧
      j.category = jsToLowerCase (category.getD "") ∧
      j.setup = setup.getD "" ∧
      j.delivery = delivery.getD "" ∧
      ∃ jk ∈ db1.jokes, jk.id = j.id ∧ jk.setup = j.setup ∧
        jk.delivery = j.delivery := by
  obtain ⟨hj, hn, hk⟩ :=
    upsertCategory_fst_jokes db (jsToLowerCase (category.getD ""))
  unfold CtrlV3.addJoke
  simp only [hc, hs, hd, Bool.or_false, Bool.false_eq_true, if_false]
  unfold TxModel.addJoke
  simp only [noFail, Bool.false_eq_true, if_false]
  refine ⟨_, _, rfl, ?_, rfl, rfl, rfl, ?_⟩
  · simp [insertJoke, hn]
  · refine ⟨⟨(upsertCategory db (jsToLowerCase (category.getD ""))).1.nextJokeId,
      (upsertCategory db (jsToLowerCase (category.getD ""))).2,
      setup.getD "", delivery.getD "",
      (upsertCategory db (jsToLowerCase (category.getD ""))).1.clock⟩, ?_, ?_, rfl, rfl⟩
    · simp [insertJoke]
    · simp [insertJoke, hn]

/-- Witness for C7's amended theorem at a concrete input. -/
theorem tx_addJoke_returns_created_joke_with_id_witness :
    (CtrlV3.falsy (some "Puns") = false ∧ CtrlV3.falsy (some "why") = false ∧
      CtrlV3.falsy (some "because") = false) ∧
    ∃ db1 j,
      CtrlV3.addJoke emptyDB (some "Puns") (some "why") (some "because")
          noFail =
        (db1, ⟨201, some "Joke added successfully!", some j, none⟩) ∧
      j.id = emptyDB.nextJokeId ∧
      j.category = jsToLowerCase ((some "Puns" : Option String).getD "") ∧
      j.setup = ((some "why" : Option String).getD "") ∧
      j.delivery = ((some "because" : Option String).getD "") ∧
      ∃ jk ∈ db1.jokes, jk.id = j.id ∧ jk.setup = j.setup ∧
        jk.delivery = j.delivery :=
  ⟨⟨by decide, by decide, by decide⟩,
   tx_addJoke_returns_created_joke_with_id emptyDB (some "Puns")
     (some "why") (some "because") (by decide) (by decide) (by decide)⟩

/-- C5: `randomJoke` on an empty joke set is a not-found result, not a
throw: the model (part_007 `getRandomJoke`) returns `null` when no jokes
exist and the controller (part_003, third variant) responds 404; when at
least one joke exists (in a well-formed store), the controller responds 200
with the single joke the model picked. -/
theorem randomJoke_empty_404_nonempty_200 (db : DB) (r : Nat)
    (hwf : db.WF) :
    (db.jokes = [] →
      TxModel.getRandomJoke db r = none ∧
      CtrlV3.getRandomJoke db r =
        ⟨404, none, some "No jokes available in the database."⟩) ∧
    (db.jokes ≠ [] →
      ∃ j, TxModel.getRandomJoke db r = some j ∧
        CtrlV3.getRandomJoke db r = ⟨200, some j, none⟩) := by
  constructor
  · intro hnil
    have hm : TxModel.getRandomJoke db r = none := by
      unfold TxModel.getRandomJoke
      simp [hnil]
    exact ⟨hm, by unfold CtrlV3.getRandomJoke; rw [hm]⟩
  · intro hne
    obtain ⟨-, -, -, -, hfk⟩ := hwf
    rcases List.exists_mem_of_ne_nil db.jokes hne with ⟨j0, hj0⟩
    rcases hfk j0 hj0 with ⟨c0, hc0, hcid⟩
    have hjoined : db.jokes.flatMap (fun j =>
        (db.categories.filter (fun c => c.id = j.category_id)).map
          (fun c => (j, c))) ≠ [] := by
      intro hempty
      have : (j0, c0) ∈ db.jokes.flatMap (fun j =>
          (db.categories.filter (fun c => c.id = j.category_id)).map
            (fun c => (j, c))) := by
        rw [List.mem_flatMap]
        exact ⟨j0, hj0, List.mem_map.mpr
          ⟨c0, List.mem_filter.mpr ⟨hc0, by simp [hcid]⟩, rfl⟩⟩
      rw [hempty] at this
      cases this
    have hlen : 0 < (db.jokes.flatMap (fun j =>
        (db.categories.filter (fun c => c.id = j.category_id)).map
          (fun c => (j, c)))).length := List.length_pos.mpr hjoined
    have hsome : ((db.jokes.flatMap (fun j =>
        (db.categories.filter (fun c => c.id = j.category_id)).map
          (fun c => (j, c)))).get?
        (r % (db.jokes.flatMap (fun j =>
          (db.categories.filter (fun c => c.id = j.category_id)).map
            (fun c => (j, c)))).length)).isSome := by
      rw [List.get?_eq_get (Nat.mod_lt r hlen)]
      rfl
    obtain ⟨p, hp⟩ := Option.isSome_iff_exists.mp hsome
    refine ⟨⟨p.1.id, p.2.name, p.1.setup, p.1.delivery⟩, ?_, ?_⟩
    · simp only [TxModel.getRandomJoke]
      rw [hp]
      rfl
    · simp only [CtrlV3.getRandomJoke, TxModel.getRandomJoke]
      rw [hp]
      rfl

/-- Witness for C5 at concrete inputs: the empty store and a one-joke
store. -/
theorem randomJoke_empty_404_nonempty_200_witness :
    (emptyDB.WF ∧
      (emptyDB.jokes = [] →
        TxModel.getRandomJoke emptyDB 0 = none ∧
        CtrlV3.getRandomJoke emptyDB 0 =
          ⟨404, none, some "No jokes available in the database."⟩)) ∧
    (dbOneJoke.WF ∧
      (dbOneJoke.jokes ≠ [] →
        ∃ j, TxModel.getRandomJoke dbOneJoke 0 = some j ∧
          CtrlV3.getRandomJoke dbOneJoke 0 = ⟨200, some j, none⟩)) :=
  ⟨⟨by decide, (randomJoke_empty_404_nonempty_200 emptyDB 0 (by decide)).1⟩,
   ⟨by decide, (randomJoke_empty_404_nonempty_200 dbOneJoke 0 (by decide)).2⟩⟩

/-- Inserting a joke leaves the categories table unchanged, so category
lookups are unaffected. -/
theorem findCategoryByName_insertJoke (db : DB) (cid : Nat) (s d n : String) :
    findCategoryByName (insertJoke db cid s d).1 n = findCategoryByName db n :=
  rfl

/-- After inserting a category with a name not present before, looking that
name up finds exactly the inserted row. -/
theorem findCategoryByName_insert_self (db : DB) (n : String)
    (h : findCategoryByName db n = none) :
    findCategoryByName (insertCategory db n).1 n = some ⟨db.nextCatId, n⟩ := by
  unfold findCategoryByName at h
  unfold findCategoryByName insertCategory
  rw [List.find?_append, h]
  simp

/-- C9: the transactional model's `addJoke` (part_007) lowercases the
category name before the upsert: two calls whose category names differ only
in letter case resolve to the same single category row (same `category_id`
on both inserted joke rows), every category row the two calls add has a
lowercased name, and both returned joke objects report the lowercased
name. -/
theorem tx_addJoke_lowercases_category (db : DB) (n1 n2 s1 d1 s2 d2 : String)
    (h : (jsToLowerCase n2) = (jsToLowerCase n1)) :
    ∃ cid,
      (TxModel.addJoke db n1 s1 d1 noFail).1.jokes =
        db.jokes ++ [⟨db.nextJokeId, cid, s1, d1, db.clock⟩] ∧
      (TxModel.addJoke (TxModel.addJoke db n1 s1 d1 noFail).1 n2 s2 d2
          noFail).1.jokes =
        db.jokes ++ [⟨db.nextJokeId, cid, s1, d1, db.clock⟩,
          ⟨db.nextJokeId + 1, cid, s2, d2, db.clock + 1⟩] ∧
      (TxModel.addJoke db n1 s1 d1 noFail).2 =
        .ok ⟨db.nextJokeId, (jsToLowerCase n1), s1, d1⟩ ∧
      (TxModel.addJoke (TxModel.addJoke db n1 s1 d1 noFail).1 n2 s2 d2
          noFail).2 =
        .ok ⟨db.nextJokeId + 1, (jsToLowerCase n2), s2, d2⟩ ∧
      ∃ ext,
        (TxModel.addJoke (TxModel.addJoke db n1 s1 d1 noFail).1 n2 s2 d2
            noFail).1.categories =
          db.categories ++ ext ∧ ∀ c ∈ ext, c.name = (jsToLowerCase n1) := by
  cases hf : findCategoryByName db (jsToLowerCase n1) with
  | some c =>
    refine ⟨c.id, ?_, ?_, ?_, ?_, [], ?_, by simp⟩ <;>
    · simp only [TxModel.addJoke, noFail, upsertCategory, h, hf,
        findCategoryByName_insertJoke, Bool.false_eq_true, if_false]
      simp [insertJoke]
  | none =>
    refine ⟨db.nextCatId, ?_, ?_, ?_, ?_,
      [⟨db.nextCatId, (jsToLowerCase n1)⟩], ?_, by simp⟩ <;>
    · simp only [TxModel.addJoke, noFail, upsertCategory, h, hf,
        findCategoryByName_insertJoke,
        findCategoryByName_insert_self db (jsToLowerCase n1) hf,
        Bool.false_eq_true, if_false]
      simp [insertJoke, insertCategory]

/-- Witness for C9 at concrete inputs differing only in case. -/
theorem tx_addJoke_lowercases_category_witness :
    (jsToLowerCase "PUNS") = (jsToLowerCase "Puns") ∧
    ∃ cid,
      (TxModel.addJoke emptyDB "Puns" "s1" "d1" noFail).1.jokes =
        emptyDB.jokes ++ [⟨emptyDB.nextJokeId, cid, "s1", "d1", emptyDB.clock⟩] ∧
      (TxModel.addJoke (TxModel.addJoke emptyDB "Puns" "s1" "d1" noFail).1
          "PUNS" "s2" "d2" noFail).1.jokes =
        emptyDB.jokes ++ [⟨emptyDB.nextJokeId, cid, "s1", "d1", emptyDB.clock⟩,
          ⟨emptyDB.nextJokeId + 1, cid, "s2", "d2", emptyDB.clock + 1⟩] ∧
      (TxModel.addJoke emptyDB "Puns" "s1" "d1" noFail).2 =
        .ok ⟨emptyDB.nextJokeId, (jsToLowerCase "Puns"), "s1", "d1"⟩ ∧
      (TxModel.addJoke (TxModel.addJoke emptyDB "Puns" "s1" "d1" noFail).1
          "PUNS" "s2" "d2" noFail).2 =
        .ok ⟨emptyDB.nextJokeId + 1, (jsToLowerCase "PUNS"), "s2", "d2"⟩ ∧
      ∃ ext,
        (TxModel.addJoke (TxModel.addJoke emptyDB "Puns" "s1" "d1" noFail).1
            "PUNS" "s2" "d2" noFail).1.categories =
          emptyDB.categories ++ ext ∧ ∀ c ∈ ext, c.name = (jsToLowerCase "Puns") :=
  ⟨by decide,
   tx_addJoke_lowercases_category emptyDB "Puns" "PUNS" "s1" "d1" "s2" "d2"
     (by decide)⟩

namespace PgModel

/-- A row of part_008's `jokes` table (`setup`, `punchline`, `category_id`,
`date_added`). -/
structure PgJoke where
  id : Nat
  setup : String
  punchline : String
  category_id : Nat
  date_added : Nat
deriving DecidableEq, Repr

/-- The database state seen by part_008's model factory. -/
structure PgDB where
  categories : List Category
  jokes : List PgJoke
deriving DecidableEq, Repr

/-- part_008 `updateJoke`: `UPDATE jokes SET setup=$1, punchline=$2,
category_id=$3 WHERE id=$4 RETURNING ...` then `result.rows[0] || null`.
No matching row means no change and `null` (a normal negative result); a
matching row updated to a dangling `category_id` makes the engine raise an
FK violation, which the function re-throws. -/
def updateJoke (db : PgDB) (id : Nat) (setup punchline : String)
    (categoryId : Nat) : PgDB × QRes (Option PgJoke) :=
  match db.jokes.find? (fun j => j.id = id) with
  | none => (db, .ok none)
  | some j =>
    if db.categories.any (fun c => c.id = categoryId) then
      ({ db with jokes := db.jokes.map (fun k =>
          if k.id = id then ⟨j.id, setup, punchline, categoryId, j.date_added⟩
          else k) },
       .ok (some ⟨j.id, setup, punchline, categoryId, j.date_added⟩))
    else (db, .err)

/-- part_008 `deleteJoke`: `DELETE FROM jokes WHERE id=$1 RETURNING id`;
returns `result.rowCount > 0`. -/
def deleteJoke (db : PgDB) (id : Nat) : PgDB × Bool :=
  ({ db with jokes := db.jokes.filter (fun j => ¬ j.id = id) },
   decide (0 < db.jokes.countP (fun j => j.id = id)))

end PgModel

namespace CtrlV1

/-- Response shape of part_003's (first variant) update/delete handlers. -/
structure Resp where
  status : Nat
  joke : Option PgModel.PgJoke
  error : Option String
deriving DecidableEq, Repr

/-- part_003 (first variant) `updateJoke` controller: 400 on a non-positive
path id, 400 on JS-falsy `setup`/`punchline`/`categoryId` (a numeric
`categoryId` is falsy exactly when 0), 400 on a non-positive category id;
otherwise calls the model with the trimmed fields and maps `null` → 404,
a thrown error → 500, success → 200 with the updated joke.  (The `isNaN`
branch of the JS `parseInt` is outside this embedding: inputs arrive
parsed.) -/
def updateJoke (db : PgModel.PgDB) (jokeId : Int)
    (setup punchline : Option String) (categoryId : Int) :
    PgModel.PgDB × Resp :=
  if jokeId ≤ 0 then (db, ⟨400, none, some "Invalid joke ID in path."⟩)
  else if CtrlV3.falsy setup || CtrlV3.falsy punchline || categoryId == 0 then
    (db, ⟨400, none,
      some "Missing required fields: setup, punchline, or categoryId."⟩)
  else if categoryId ≤ 0 then
    (db, ⟨400, none, some "Invalid category ID in body."⟩)
  else
    match PgModel.updateJoke db jokeId.toNat (setup.getD "").trim
        (punchline.getD "").trim categoryId.toNat with
    | (db1, .ok none) =>
      (db1, ⟨404, none,
        some ("Joke with ID " ++ toString jokeId ++ " not found.")⟩)
    | (db1, .ok (some j)) => (db1, ⟨200, some j, none⟩)
    | (db1, .err) =>
      (db1, ⟨500, none,
        some ("Failed to update joke ID " ++ toString jokeId ++ ".")⟩)

/-- part_003 (first variant) `deleteJoke` controller: 400 on a non-positive
path id; otherwise calls the model and maps `false` → 404 and `true` → 204
(empty body). -/
def deleteJoke (db : PgModel.PgDB) (jokeId : Int) : PgModel.PgDB × Resp :=
  if jokeId ≤ 0 then (db, ⟨400, none, some "Invalid joke ID in path."⟩)
  else
    match PgModel.deleteJoke db jokeId.toNat with
    | (db1, true) => (db1, ⟨204, none, none⟩)
    | (db1, false) =>
      (db1, ⟨404, none,
        some ("Joke with ID " ++ toString jokeId ++ " not found.")⟩)

end CtrlV1

/-- C8: for every `updateJoke` or `deleteJoke` call whose id matches no row,
the model (part_008) returns `null` (update) / `false` (delete) as a normal
negative result — no error raised — and the controller (part_003, first
variant) maps that to 404 with the store unchanged, never to 500. -/
theorem update_delete_missing_id_yields_404_not_500 (db : PgModel.PgDB)
    (jokeId : Int) (setup punchline : String) (categoryId : Int)
    (hpos : 0 < jokeId) (hnone : ∀ j ∈ db.jokes, j.id ≠ jokeId.toNat)
    (hs : setup ≠ "") (hp : punchline ≠ "") (hcat : 0 < categoryId) :
    (PgModel.deleteJoke db jokeId.toNat).2 = false ∧
    (PgModel.updateJoke db jokeId.toNat setup.trim punchline.trim
        categoryId.toNat).2 = .ok none ∧
    CtrlV1.deleteJoke db jokeId =
      (db, ⟨404, none,
        some ("Joke with ID " ++ toString jokeId ++ " not found.")⟩) ∧
    CtrlV1.updateJoke db jokeId (some setup) (some punchline) categoryId =
      (db, ⟨404, none,
        some ("Joke with ID " ++ toString jokeId ++ " not found.")⟩) := by
  have hfind : db.jokes.find? (fun j => j.id = jokeId.toNat) = none := by
    apply List.find?_eq_none.mpr
    intro j hj
    simp [hnone j hj]
  have hcount : db.jokes.countP (fun j => j.id = jokeId.toNat) = 0 := by
    apply List.countP_eq_zero.mpr
    intro j hj
    simp [hnone j hj]
  have hfilter : db.jokes.filter (fun j => ¬ j.id = jokeId.toNat) = db.jokes := by
    apply List.filter_eq_self.mpr
    intro j hj
    simp [hnone j hj]
  have hdel : PgModel.deleteJoke db jokeId.toNat = (db, false) := by
    unfold PgModel.deleteJoke
    rw [hcount, hfilter]
    simp
  have hupd : ∀ s2 p2 : String,
      PgModel.updateJoke db jokeId.toNat s2 p2 categoryId.toNat =
        (db, .ok none) := by
    intro s2 p2
    unfold PgModel.updateJoke
    rw [hfind]
  refine ⟨by rw [hdel], by rw [hupd], ?_, ?_⟩
  · unfold CtrlV1.deleteJoke
    rw [if_neg (by omega), hdel]
  · unfold CtrlV1.updateJoke
    rw [if_neg (by omega)]
    rw [if_neg ?_, if_neg (by omega), hupd]
    simp [CtrlV3.falsy, hs, hp]
    omega

/-- Witness for C8 at a concrete input: id 5 matches no row of a one-joke
store. -/
theorem update_delete_missing_id_yields_404_not_500_witness :
    ((0 : Int) < 5 ∧
      (∀ j ∈ (PgModel.PgDB.mk [⟨1, "puns"⟩] [⟨1, "s", "p", 1, 0⟩]).jokes,
        j.id ≠ (5 : Int).toNat) ∧
      "s2" ≠ "" ∧ "p2" ≠ "" ∧ (0 : Int) < 1) ∧
    (PgModel.deleteJoke (PgModel.PgDB.mk [⟨1, "puns"⟩] [⟨1, "s", "p", 1, 0⟩])
        (5 : Int).toNat).2 = false ∧
    (PgModel.updateJoke (PgModel.PgDB.mk [⟨1, "puns"⟩] [⟨1, "s", "p", 1, 0⟩])
        (5 : Int).toNat "s2".trim "p2".trim (1 : Int).toNat).2 = .ok none ∧
    CtrlV1.deleteJoke (PgModel.PgDB.mk [⟨1, "puns"⟩] [⟨1, "s", "p", 1, 0⟩])
        5 =
      (PgModel.PgDB.mk [⟨1, "puns"⟩] [⟨1, "s", "p", 1, 0⟩],
        ⟨404, none, some ("Joke with ID " ++ toString (5 : Int) ++ " not found.")⟩) ∧
    CtrlV1.updateJoke (PgModel.PgDB.mk [⟨1, "puns"⟩] [⟨1, "s", "p", 1, 0⟩])
        5 (some "s2") (some "p2") 1 =
      (PgModel.PgDB.mk [⟨1, "puns"⟩] [⟨1, "s", "p", 1, 0⟩],
        ⟨404, none, some ("Joke with ID " ++ toString (5 : Int) ++ " not found.")⟩) :=
  ⟨⟨by decide, by decide, by decide, by decide, by decide⟩,
   update_delete_missing_id_yields_404_not_500
     (PgModel.PgDB.mk [⟨1, "puns"⟩] [⟨1, "s", "p", 1, 0⟩]) 5 "s2" "p2" 1
     (by decide) (by decide) (by decide) (by decide) (by decide)⟩

namespace TxModel

/-- The join underlying part_007's `getJokesByCategoryId`:
`FROM jokes j JOIN categories c ON j.category_id = c.id
WHERE j.category_id = $1 ORDER BY j.created_at DESC`. -/
def joinByCategoryId (db : DB) (categoryId : Nat) : List (Joke × Category) :=
  sortBy (fun a b => b.1.created_at ≤ a.1.created_at)
    ((db.jokes.filter (fun j => j.category_id = categoryId)).flatMap
      (fun j => (db.categories.filter (fun c => c.id = j.category_id)).map
        (fun c => (j, c))))

/-- part_007 `getJokesByCategoryId(categoryId, limit = 100)`: the join
above with `LIMIT $2`, the limit defaulting to 100 when the caller passes
none. -/
def getJokesByCategoryId (db : DB) (categoryId : Nat) (limit : Option Nat) :
    List JokeRow :=
  ((joinByCategoryId db categoryId).take (limit.getD 100)).map
    (fun p => ⟨p.1.id, p.2.name, p.1.setup, p.1.delivery⟩)

end TxModel

namespace CtrlV2

/-- Response shape of part_006's `getJokesByCategoryId` handler. -/
structure RespL where
  status : Nat
  jokes : Option (List TxModel.JokeRow)
  error : Option String
deriving DecidableEq, Repr

/-- part_006 `getJokesByCategoryId`: calls part_007's model and maps an
empty listing — whether the category id is unknown or merely has no jokes —
to one and the same 404 error body.  (The `isNaN` parse guard is outside
this embedding: the id arrives parsed.) -/
def getJokesByCategoryId (db : DB) (categoryId : Nat) (limit : Option Nat) :
    RespL :=
  let jokes := TxModel.getJokesByCategoryId db categoryId limit
  if jokes.length = 0 then
    ⟨404, none, some "No jokes found for this category ID."⟩
  else ⟨200, some jokes, none⟩

end CtrlV2

namespace MemCtrl

/-- A joke of part_004's in-memory data set. -/
structure MemJoke where
  id : Nat
  category : String
  setup : String
  delivery : String
  categoryId : Nat
deriving DecidableEq, Repr

/-- Response shape of part_004's `getJokesByCategoryId` handler. -/
structure MResp where
  status : Nat
  category : Option String
  count : Option Nat
  data : Option (List MemJoke)
  error : Option String
deriving DecidableEq, Repr

/-- part_004 `getJokesByCategoryId` over the in-memory arrays: 404
`"Category not found"` when no category row has the id; 404
`"No jokes found for category ID {id}"` when the category exists but holds
no jokes; otherwise 200 with the jokes, sliced when a positive limit was
passed (`limit && !isNaN(limit) && limit > 0`). -/
def getJokesByCategoryId (categoryData : List Category)
    (jokeData : List MemJoke) (categoryId : Int) (limit : Option Int) :
    MResp :=
  match categoryData.find? (fun c => (c.id : Int) = categoryId) with
  | none => ⟨404, none, none, none, some "Category not found"⟩
  | some category =>
    let jokes := jokeData.filter (fun j => (j.categoryId : Int) = categoryId)
    if jokes.length = 0 then
      ⟨404, none, none, none,
        some ("No jokes found for category ID " ++ toString categoryId)⟩
    else
      let jokes2 :=
        match limit with
        | some l => if 0 < l then jokes.take l.toNat else jokes
        | none => jokes
      ⟨200, some category.name, some jokes2.length, some jokes2, none⟩

end MemCtrl

/-- C6: the claim wants "category missing" and "category exists but empty"
to yield distinguishable 404 messages.  FALSE for the cited store-backed
controller (part_006 over part_007's model): a state with no category id 1
and a state whose category id 1 exists with zero jokes produce the
identical 404 response. -/
theorem storeCtrl_conflates_missing_and_empty_category :
    CtrlV2.getJokesByCategoryId emptyDB 1 none =
      CtrlV2.getJokesByCategoryId ⟨[⟨1, "puns"⟩], [], 2, 1, 0⟩ 1 none ∧
    (CtrlV2.getJokesByCategoryId emptyDB 1 none).status = 404 ∧
    emptyDB.categories.find? (fun c => c.id = 1) = none ∧
    (⟨[⟨1, "puns"⟩], [], 2, 1, 0⟩ : DB).categories.find? (fun c => c.id = 1)
      ≠ none := by
  decide

/-- C6 (amended): the in-memory variant (part_004) does distinguish: a
missing category id yields 404 `"Category not found"`, an existing category
with zero jokes yields 404 `"No jokes found for category ID {id}"`, and the
two messages always differ.  The store-backed variant (part_006 over
part_007's model) conflates both cases into one 404 message. -/
theorem memCtrl_distinguishes_missing_and_empty_category
    (categoryData : List Category) (jokeData : List MemCtrl.MemJoke)
    (categoryId : Int) (limit : Option Int) :
    (categoryData.find? (fun c => (c.id : Int) = categoryId) = none →
      MemCtrl.getJokesByCategoryId categoryData jokeData categoryId limit =
        ⟨404, none, none, none, some "Category not found"⟩) ∧
    ((∃ c ∈ categoryData, (c.id : Int) = categoryId) →
      jokeData.filter (fun j => (j.categoryId : Int) = categoryId) = [] →
      MemCtrl.getJokesByCategoryId categoryData jokeData categoryId limit =
        ⟨404, none, none, none,
          some ("No jokes found for category ID " ++ toString categoryId)⟩) ∧
    "Category not found" ≠
      "No jokes found for category ID " ++ toString categoryId := by
  refine ⟨?_, ?_, ?_⟩
  · intro hnone
    unfold MemCtrl.getJokesByCategoryId
    rw [hnone]
  · intro hex hempty
    have hsome : (categoryData.find?
        (fun c => (c.id : Int) = categoryId)).isSome := by
      rw [List.find?_isSome]
      rcases hex with ⟨c, hc, hcid⟩
      exact ⟨c, hc, by simp [hcid]⟩
    rcases Option.isSome_iff_exists.mp hsome with ⟨c, hc⟩
    unfold MemCtrl.getJokesByCategoryId
    rw [hc, hempty]
    rfl
  · intro hcontra
    have hlen := congrArg String.length hcontra
    rw [String.length_append] at hlen
    have h1 : ("Category not found").length = 18 := rfl
    have h2 : ("No jokes found for category ID ").length = 31 := rfl
    omega

/-- Witness for C6's amended theorem: both branches at concrete inputs. -/
theorem memCtrl_distinguishes_missing_and_empty_category_witness :
    MemCtrl.getJokesByCategoryId [⟨2, "puns"⟩] [] 1 none =
      ⟨404, none, none, none, some "Category not found"⟩ ∧
    MemCtrl.getJokesByCategoryId [⟨1, "puns"⟩] [] 1 none =
      ⟨404, none, none, none,
        some ("No jokes found for category ID " ++ toString (1 : Int))⟩ :=
  ⟨(memCtrl_distinguishes_missing_and_empty_category [⟨2, "puns"⟩] [] 1
      none).1 (by decide),
   (memCtrl_distinguishes_missing_and_empty_category [⟨1, "puns"⟩] [] 1
      none).2.1 ⟨⟨1, "puns"⟩, by decide, by decide⟩ (by decide)⟩

/-- In a category list with pairwise-distinct ids, filtering by a predicate
that pins the id of a member `c` (and holds at `c`) yields exactly `[c]`. -/
theorem filter_eq_single_of_unique (l : List Category) (c : Category)
    (hmem : c ∈ l)
    (hpw : l.Pairwise (fun a b => a.id ≠ b.id ∧ a.name ≠ b.name))
    (q : Category → Bool) (hq : q c = true)
    (hid : ∀ cc, q cc = true → cc.id = c.id) :
    l.filter q = [c] := by
  induction l with
  | nil => cases hmem
  | cons x t ih =>
    rcases List.pairwise_cons.mp hpw with ⟨hx, ht⟩
    rcases List.mem_cons.mp hmem with hxc | hmemt
    · cases hxc
      rw [List.filter_cons_of_pos hq]
      have hnil : t.filter q = [] := by
        apply List.filter_eq_nil_iff.mpr
        intro a ha hqa
        exact (hx a ha).1 (hid a hqa).symm
      rw [hnil]
    · have hqx : q x = false := by
        cases hqx : q x
        · rfl
        · exact absurd (hid x hqx) (hx c hmemt).1
      rw [List.filter_cons_of_neg (by simp [hqx])]
      exact ih hmemt ht

/-- No pair of the raw category join carries a joke id that is fresh for
the database. -/
theorem rawJoin_filter_fresh (db : DB) (category : String) (nid : Nat)
    (hfresh : ∀ j ∈ db.jokes, j.id ≠ nid) :
    (NontxModel.rawJoinByCategory db category).filter
      (fun p => p.1.id = nid) = [] := by
  apply List.filter_eq_nil_iff.mpr
  intro p hp
  rcases List.mem_flatMap.mp hp with ⟨j, hj, hpj⟩
  rcases List.mem_map.mp hpj with ⟨c, hc, hpc⟩
  cases hpc
  simp [hfresh j hj]

/-- Inserting a joke for a category row `c` (unique id, name = `category`)
makes the sorted join for `category` contain the new pair exactly once. -/
theorem insertJoke_join_once (db0 : DB) (category setup delivery : String)
    (c : Category) (hmem : c ∈ db0.categories) (hname : c.name = category)
    (hpw : db0.categories.Pairwise (fun a b => a.id ≠ b.id ∧ a.name ≠ b.name))
    (hfresh : ∀ j ∈ db0.jokes, j.id ≠ db0.nextJokeId) :
    ((NontxModel.joinByCategory (insertJoke db0 c.id setup delivery).1
        category).filter (fun p => p.1.id = db0.nextJokeId)).length = 1 ∧
    (⟨db0.nextJokeId, c.id, setup, delivery, db0.clock⟩, c) ∈
      NontxModel.joinByCategory (insertJoke db0 c.id setup delivery).1
        category := by
  have hcats : db0.categories.filter
      (fun cc => cc.id = c.id ∧ cc.name = category) = [c] := by
    apply filter_eq_single_of_unique db0.categories c hmem hpw _ (by simp [hname])
    intro cc hcc
    simp at hcc
    exact hcc.1
  have hraw : NontxModel.rawJoinByCategory
      (insertJoke db0 c.id setup delivery).1 category =
      NontxModel.rawJoinByCategory db0 category ++
        [(⟨db0.nextJokeId, c.id, setup, delivery, db0.clock⟩, c)] := by
    unfold NontxModel.rawJoinByCategory insertJoke
    rw [List.flatMap_append]
    congr 1
    rw [List.flatMap_cons, List.flatMap_nil, List.append_nil]
    rw [hcats]
    rfl
  have hperm := sortBy_perm (fun a b : Joke × Category => a.1.id ≤ b.1.id)
    (NontxModel.rawJoinByCategory (insertJoke db0 c.id setup delivery).1
      category)
  constructor
  · have hlen := (hperm.filter
      (fun p : Joke × Category => p.1.id = db0.nextJokeId)).length_eq
    unfold NontxModel.joinByCategory
    rw [hlen, hraw, List.filter_append,
      rawJoin_filter_fresh db0 category db0.nextJokeId hfresh]
    simp
  · unfold NontxModel.joinByCategory
    rw [hperm.mem_iff, hraw]
    exact List.mem_append_right _ (List.mem_singleton.mpr rfl)

/-- C4: for every well-formed store, a successful `createJoke` (jokeModel.js
`addJoke`) followed by `listJokesByCategory` (`getJokesByCategory`) for the
same category yields a listing that includes the created joke exactly once:
the join behind the listing holds exactly one row with the fresh joke id,
that row carries the submitted fields and the requested category, and its
setup/delivery projection appears in the returned rows; `addJoke` itself
returns this very listing. -/
theorem addJoke_then_list_contains_joke_once (db : DB)
    (setup delivery category : String) (hwf : db.WF) :
    ∃ db1 rows,
      NontxModel.addJoke db setup delivery category noFail = (db1, .ok rows) ∧
      NontxModel.getJokesByCategory db1 category none = .ok rows ∧
      ((NontxModel.joinByCategory db1 category).filter
        (fun p => p.1.id = db.nextJokeId)).length = 1 ∧
      (∃ p ∈ NontxModel.joinByCategory db1 category,
        p.1.id = db.nextJokeId ∧ p.1.setup = setup ∧
        p.1.delivery = delivery ∧ p.2.name = category) ∧
      (⟨setup, delivery⟩ : NontxModel.Row) ∈ rows := by
  obtain ⟨hpwC, hpwJ, hltC, hltJ, hfk⟩ := hwf
  have hfresh : ∀ j ∈ db.jokes, j.id ≠ db.nextJokeId := by
    intro j hj
    exact Nat.ne_of_lt (hltJ j hj)
  cases hf : findCategoryByName db category with
  | some c =>
    have hmem : c ∈ db.categories := List.mem_of_find?_eq_some hf
    have hname : c.name = category := by
      have := List.find?_some hf
      simpa using this
    obtain ⟨honce, hpair⟩ :=
      insertJoke_join_once db category setup delivery c hmem hname hpwC hfresh
    have hne : NontxModel.joinByCategory
        (insertJoke db c.id setup delivery).1 category ≠ [] :=
      List.ne_nil_of_mem hpair
    have hlist : NontxModel.getJokesByCategory
        (insertJoke db c.id setup delivery).1 category none =
        .ok ((NontxModel.joinByCategory
          (insertJoke db c.id setup delivery).1 category).map
            (fun p => ⟨p.1.setup, p.1.delivery⟩)) := by
      unfold NontxModel.getJokesByCategory
      rw [if_neg (by simp [List.isEmpty_iff, hne])]
    refine ⟨(insertJoke db c.id setup delivery).1, _, ?_, hlist, honce,
      ⟨_, hpair, rfl, rfl, rfl, hname⟩, ?_⟩
    · unfold NontxModel.addJoke
      rw [hf]
      simp only [noFail, Bool.false_eq_true, if_false]
      rw [hlist]
    · exact List.mem_map.mpr ⟨_, hpair, rfl⟩
  | none =>
    have hnotname : ∀ cc ∈ db.categories, cc.name ≠ category := by
      intro cc hcc heq
      have hnone := List.find?_eq_none.mp hf cc hcc
      simp [heq] at hnone
    have hpwC2 : ((insertCategory db category).1.categories).Pairwise
        (fun a b => a.id ≠ b.id ∧ a.name ≠ b.name) := by
      unfold insertCategory
      rw [List.pairwise_append]
      refine ⟨hpwC, by simp, ?_⟩
      intro a ha b hb
      rcases List.mem_singleton.mp hb with rfl
      exact ⟨Nat.ne_of_lt (hltC a ha), hnotname a ha⟩
    have hmem2 : (⟨db.nextCatId, category⟩ : Category) ∈
        (insertCategory db category).1.categories :=
      List.mem_append_right _ (List.mem_singleton.mpr rfl)
    obtain ⟨honce, hpair⟩ := insertJoke_join_once (insertCategory db category).1
      category setup delivery ⟨db.nextCatId, category⟩ hmem2 rfl hpwC2
      (by intro j hj; exact hfresh j hj)
    have hne : NontxModel.joinByCategory
        (insertJoke (insertCategory db category).1 db.nextCatId setup
          delivery).1 category ≠ [] :=
      List.ne_nil_of_mem hpair
    have hlist : NontxModel.getJokesByCategory
        (insertJoke (insertCategory db category).1 db.nextCatId setup
          delivery).1 category none =
        .ok ((NontxModel.joinByCategory
          (insertJoke (insertCategory db category).1 db.nextCatId setup
            delivery).1 category).map
            (fun p => ⟨p.1.setup, p.1.delivery⟩)) := by
      unfold NontxModel.getJokesByCategory
      rw [if_neg (by simp [List.isEmpty_iff, hne])]
    refine ⟨_, _, ?_, hlist, honce, ⟨_, hpair, rfl, rfl, rfl, rfl⟩, ?_⟩
    · unfold NontxModel.addJoke
      rw [hf]
      simp only [noFail, Bool.false_eq_true, if_false]
      rw [show (insertCategory db category).2 = db.nextCatId from rfl, hlist]
    · exact List.mem_map.mpr ⟨_, hpair, rfl⟩

/-- Witness for C4 at a concrete input: the one-joke store. -/
theorem addJoke_then_list_contains_joke_once_witness :
    dbOneJoke.WF ∧
    ∃ db1 rows,
      NontxModel.addJoke dbOneJoke "why" "because" "puns" noFail =
        (db1, .ok rows) ∧
      NontxModel.getJokesByCategory db1 "puns" none = .ok rows ∧
      ((NontxModel.joinByCategory db1 "puns").filter
        (fun p => p.1.id = dbOneJoke.nextJokeId)).length = 1 ∧
      (∃ p ∈ NontxModel.joinByCategory db1 "puns",
        p.1.id = dbOneJoke.nextJokeId ∧ p.1.setup = "why" ∧
        p.1.delivery = "because" ∧ p.2.name = "puns") ∧
      (⟨"why", "because"⟩ : NontxModel.Row) ∈ rows :=
  ⟨by decide,
   addJoke_then_list_contains_joke_once dbOneJoke "why" "because" "puns"
     (by decide)⟩

/-- Progress state of one concurrent `addJoke` call: its program counter,
the category id it resolved, the id of the joke row it inserted, and
whether one of its statements raised. -/
structure CallSt where
  pc : Nat
  catId : Option Nat
  jokeId : Option Nat
  failed : Bool
deriving DecidableEq, Repr

/-- Initial per-call state. -/
def CallSt.start : CallSt := ⟨0, none, none, false⟩

/-- Run two concurrent calls under a schedule: `true` steps call A, `false`
steps call B; each step executes one atomic statement on the shared
store. -/
def run2 (stepA stepB : DB → CallSt → DB × CallSt) :
    DB → CallSt → CallSt → List Bool → DB × CallSt × CallSt
  | db, sA, sB, [] => (db, sA, sB)
  | db, sA, sB, true :: rest =>
    run2 stepA stepB (stepA db sA).1 (stepA db sA).2 sB rest
  | db, sA, sB, false :: rest =>
    run2 stepA stepB (stepB db sB).1 sA (stepB db sB).2 rest

namespace TxModel

/-- One atomic statement of a concurrent part_007 `addJoke` call: statement
0 is the category upsert on the lowercased name (`INSERT ... ON CONFLICT
(name) DO UPDATE ... RETURNING id`, whose insert-or-get resolves a race on
the unique name to one winner), statement 1 the joke insert. -/
def step (categoryName setup delivery : String) (db : DB) (s : CallSt) :
    DB × CallSt :=
  match s.pc with
  | 0 =>
    ((upsertCategory db (jsToLowerCase categoryName)).1,
     { s with
        pc := 1
        catId := some (upsertCategory db (jsToLowerCase categoryName)).2 })
  | 1 =>
    match s.catId with
    | some cid =>
      ((insertJoke db cid setup delivery).1,
       { s with pc := 2, jokeId := some (insertJoke db cid setup delivery).2 })
    | none => (db, { s with pc := 2, failed := true })
  | _ => (db, s)

end TxModel

namespace NontxModel

/-- One atomic statement of a concurrent jokeModel.js `addJoke` call:
statement 0 the category `SELECT`, statement 1 the plain category `INSERT`
(raising a unique violation — the call throws — when the name meanwhile
exists), statement 2 the joke `INSERT`.  The final listing `SELECT` is
read-only and omitted. -/
def step (setup delivery categoryName : String) (db : DB) (s : CallSt) :
    DB × CallSt :=
  match s.pc with
  | 0 =>
    match findCategoryByName db categoryName with
    | some c => (db, { s with pc := 2, catId := some c.id })
    | none => (db, { s with pc := 1 })
  | 1 =>
    if db.categories.any (fun c => c.name = categoryName) then
      (db, { s with pc := 3, failed := true })
    else
      ((insertCategory db categoryName).1,
       { s with pc := 2, catId := some (insertCategory db categoryName).2 })
  | 2 =>
    match s.catId with
    | some cid =>
      ((insertJoke db cid setup delivery).1,
       { s with pc := 3, jokeId := some (insertJoke db cid setup delivery).2 })
    | none => (db, { s with pc := 3, failed := true })
  | _ => (db, s)

end NontxModel

/-- Two concurrent part_007 `addJoke` calls for the same category name, run
under a schedule. -/
def txRun2 (db : DB) (n sA dA sB dB : String) (sched : List Bool) :
    DB × CallSt × CallSt :=
  run2 (TxModel.step n sA dA) (TxModel.step n sB dB) db
    CallSt.start CallSt.start sched

/-- C2: the claim — two concurrent `addJoke` calls with the same new
category name both succeed and both jokes reference the one category row —
is FALSE for the cited `src/jokeModel.js` variant (select-then-insert
without upsert): in the interleaving where both calls first run their
category `SELECT`, the second category `INSERT` hits the unique-name
violation, that call throws and never inserts its joke; afterwards there is
one category row but only one joke. -/
theorem nontx_concurrent_addJoke_race_loser_fails :
    (run2 (NontxModel.step "s1" "d1" "puns") (NontxModel.step "s2" "d2" "puns")
        emptyDB CallSt.start CallSt.start
        [true, false, true, false, true]).2.2.failed = true ∧
    (run2 (NontxModel.step "s1" "d1" "puns") (NontxModel.step "s2" "d2" "puns")
        emptyDB CallSt.start CallSt.start
        [true, false, true, false, true]).2.2.jokeId = none ∧
    (run2 (NontxModel.step "s1" "d1" "puns") (NontxModel.step "s2" "d2" "puns")
        emptyDB CallSt.start CallSt.start
        [true, false, true, false, true]).1.jokes.length = 1 ∧
    (run2 (NontxModel.step "s1" "d1" "puns") (NontxModel.step "s2" "d2" "puns")
        emptyDB CallSt.start CallSt.start
        [true, false, true, false, true]).1.categories = [⟨1, "puns"⟩] := by
  decide

/-- C2 (amended, for the upsert-based transactional variant part_007): for
every store with no category of the (lowercased) name and every complete
interleaving of the two calls' statements, both calls finish without error,
exactly one category row with that name exists afterwards, both calls
resolved the same category id — that row's id — and each call's inserted
joke row is present and references it. -/
theorem tx_concurrent_addJoke_single_category (db : DB)
    (n sA dA sB dB : String) (sched : List Bool)
    (hnot : ∀ c ∈ db.categories, c.name ≠ jsToLowerCase n)
    (hlen : sched.length = 4) (hcount : sched.count true = 2) :
    ∃ cid,
      (txRun2 db n sA dA sB dB sched).2.1.pc = 2 ∧
      (txRun2 db n sA dA sB dB sched).2.2.pc = 2 ∧
      (txRun2 db n sA dA sB dB sched).2.1.failed = false ∧
      (txRun2 db n sA dA sB dB sched).2.2.failed = false ∧
      (txRun2 db n sA dA sB dB sched).2.1.catId = some cid ∧
      (txRun2 db n sA dA sB dB sched).2.2.catId = some cid ∧
      (txRun2 db n sA dA sB dB sched).1.categories.filter
          (fun c => c.name = jsToLowerCase n) = [⟨cid, jsToLowerCase n⟩] ∧
      (∃ ja, (txRun2 db n sA dA sB dB sched).2.1.jokeId = some ja ∧
        ∃ j ∈ (txRun2 db n sA dA sB dB sched).1.jokes,
          j.id = ja ∧ j.category_id = cid) ∧
      (∃ jb, (txRun2 db n sA dA sB dB sched).2.2.jokeId = some jb ∧
        ∃ j ∈ (txRun2 db n sA dA sB dB sched).1.jokes,
          j.id = jb ∧ j.category_id = cid) := by
  have hfind : findCategoryByName db (jsToLowerCase n) = none := by
    apply List.find?_eq_none.mpr
    intro c hc
    simp [hnot c hc]
  have hfil : db.categories.filter (fun c => c.name = jsToLowerCase n) = [] := by
    apply List.filter_eq_nil_iff.mpr
    intro c hc
    simp [hnot c hc]
  have hself := findCategoryByName_insert_self db (jsToLowerCase n) hfind
  obtain ⟨a, b, c', d, rfl⟩ : ∃ a b c' d, sched = [a, b, c', d] := by
    rcases sched with _ | ⟨a, _ | ⟨b, _ | ⟨c', _ | ⟨d, _ | ⟨e, t⟩⟩⟩⟩⟩ <;>
      simp at hlen
    exact ⟨a, b, c', d, rfl⟩
  cases a <;> cases b <;> cases c' <;> cases d <;>
    first
    | exact absurd hcount (by decide)
    | (simp only [txRun2, run2, TxModel.step, CallSt.start, upsertCategory,
         hfind, hself, findCategoryByName_insertJoke]
       refine ⟨db.nextCatId, by trivial, by trivial, by trivial, by trivial,
         by trivial, by trivial, ?_, ?_, ?_⟩
       · simp only [insertCategory, insertJoke]
         rw [List.filter_append, hfil]
         simp
       · first
         | exact ⟨_, rfl, ⟨db.nextJokeId, db.nextCatId, sA, dA, db.clock⟩,
             by simp [insertCategory, insertJoke], rfl, rfl⟩
         | exact ⟨_, rfl,
             ⟨db.nextJokeId + 1, db.nextCatId, sA, dA, db.clock + 1⟩,
             by simp [insertCategory, insertJoke], rfl, rfl⟩
       · first
         | exact ⟨_, rfl, ⟨db.nextJokeId, db.nextCatId, sB, dB, db.clock⟩,
             by simp [insertCategory, insertJoke], rfl, rfl⟩
         | exact ⟨_, rfl,
             ⟨db.nextJokeId + 1, db.nextCatId, sB, dB, db.clock + 1⟩,
             by simp [insertCategory, insertJoke], rfl, rfl⟩)

/-- Witness for C2's amended theorem at a concrete input: the empty store,
category name "Puns", schedule A,A,B,B. -/
theorem tx_concurrent_addJoke_single_category_witness :
    ((∀ c ∈ emptyDB.categories, c.name ≠ jsToLowerCase "Puns") ∧
      ([true, true, false, false] : List Bool).length = 4 ∧
      ([true, true, false, false] : List Bool).count true = 2) ∧
    ∃ cid,
      (txRun2 emptyDB "Puns" "sA" "dA" "sB" "dB"
        [true, true, false, false]).2.1.pc = 2 ∧
      (txRun2 emptyDB "Puns" "sA" "dA" "sB" "dB"
        [true, true, false, false]).2.2.pc = 2 ∧
      (txRun2 emptyDB "Puns" "sA" "dA" "sB" "dB"
        [true, true, false, false]).2.1.failed = false ∧
      (txRun2 emptyDB "Puns" "sA" "dA" "sB" "dB"
        [true, true, false, false]).2.2.failed = false ∧
      (txRun2 emptyDB "Puns" "sA" "dA" "sB" "dB"
        [true, true, false, false]).2.1.catId = some cid ∧
      (txRun2 emptyDB "Puns" "sA" "dA" "sB" "dB"
        [true, true, false, false]).2.2.catId = some cid ∧
      (txRun2 emptyDB "Puns" "sA" "dA" "sB" "dB"
          [true, true, false, false]).1.categories.filter
          (fun c => c.name = jsToLowerCase "Puns") =
        [⟨cid, jsToLowerCase "Puns"⟩] ∧
      (∃ ja, (txRun2 emptyDB "Puns" "sA" "dA" "sB" "dB"
          [true, true, false, false]).2.1.jokeId = some ja ∧
        ∃ j ∈ (txRun2 emptyDB "Puns" "sA" "dA" "sB" "dB"
          [true, true, false, false]).1.jokes,
          j.id = ja ∧ j.category_id = cid) ∧
      (∃ jb, (txRun2 emptyDB "Puns" "sA" "dA" "sB" "dB"
          [true, true, false, false]).2.2.jokeId = some jb ∧
        ∃ j ∈ (txRun2 emptyDB "Puns" "sA" "dA" "sB" "dB"
          [true, true, false, false]).1.jokes,
          j.id = jb ∧ j.category_id = cid) :=
  ⟨⟨by decide, by decide, by decide⟩,
   tx_concurrent_addJoke_single_category emptyDB "Puns" "sA" "dA" "sB" "dB"
     [true, true, false, false] (by decide) (by decide) (by decide)⟩

/-- `l.flatMap f` is a plain map when each element contributes exactly one
result. -/
theorem flatMap_eq_map_of_forall {α β : Type} (l : List α) (f : α → List β)
    (g : α → β) (h : ∀ x ∈ l, f x = [g x]) : l.flatMap f = l.map g := by
  induction l with
  | nil => rfl
  | cons x t ih =>
    rw [List.flatMap_cons, h x (List.mem_cons_self x t),
      ih (fun y hy => h y (List.mem_cons_of_mem x hy))]
    rfl

/-- In a list sorted descending by `key` with pairwise-distinct keys, an
element lies in the first `k` entries exactly when fewer than `k` entries
have a strictly greater key. -/
theorem mem_take_sorted_iff {α : Type} (key : α → Nat) :
    ∀ (l : List α), l.Pairwise (fun a b => key b ≤ key a) →
      l.Pairwise (fun a b => key a ≠ key b) → ∀ (k : Nat) (x : α),
      (x ∈ l.take k ↔
        x ∈ l ∧ (l.filter (fun y => key x < key y)).length < k)
  | [], _, _, k, x => by simp
  | a :: t, _, _, 0, x => by simp
  | a :: t, hs, hd, (m+1), x => by
    rcases List.pairwise_cons.mp hs with ⟨hsa, hst⟩
    rcases List.pairwise_cons.mp hd with ⟨hda, hdt⟩
    rw [List.take_succ_cons]
    constructor
    · intro hx
      rcases List.mem_cons.mp hx with hxa | hx
      · subst hxa
        refine ⟨List.mem_cons_self x t, ?_⟩
        have hnil : (x :: t).filter (fun y => key x < key y) = [] := by
          apply List.filter_eq_nil_iff.mpr
          intro y hy
          rcases List.mem_cons.mp hy with hya | hy
          · subst hya; simp
          · simp
            exact hsa y hy
        rw [hnil]
        simp
      · rcases (mem_take_sorted_iff key t hst hdt m x).mp hx with ⟨hxt, hcnt⟩
        refine ⟨List.mem_cons_of_mem a hxt, ?_⟩
        have hlt : key x < key a :=
          Nat.lt_of_le_of_ne (hsa x hxt) (fun he => hda x hxt he.symm)
        rw [List.filter_cons_of_pos (by simpa using hlt)]
        simpa using hcnt
    · rintro ⟨hx, hcnt⟩
      rcases List.mem_cons.mp hx with hxa | hx
      · subst hxa
        exact List.mem_cons_self _ _
      · apply List.mem_cons_of_mem
        apply (mem_take_sorted_iff key t hst hdt m x).mpr
        refine ⟨hx, ?_⟩
        have hlt : key x < key a :=
          Nat.lt_of_le_of_ne (hsa x hx) (fun he => hda x hx he.symm)
        rw [List.filter_cons_of_pos (by simpa using hlt)] at hcnt
        simpa using hcnt

/-- Specification-side characterization, written from the claim's words:
the jokes of the category among which fewer than `k` same-category jokes
were created more recently (strictly greater `created_at`). -/
def mostRecent (db : DB) (categoryId : Nat) (k : Nat) : List Joke :=
  (db.jokes.filter (fun j => j.category_id = categoryId)).filter
    (fun j =>
      ((db.jokes.filter (fun j2 => j2.category_id = categoryId)).filter
        (fun j2 => j.created_at < j2.created_at)).length < k)

/-- C10: with no caller-supplied limit, the store-backed
`getJokesByCategoryId` (part_007) applies its default `LIMIT 100` over
`ORDER BY created_at DESC`: the no-limit call equals the limit-100 call,
and on a well-formed store whose category holds more than 100 jokes with
distinct creation times it returns exactly 100 rows — precisely the rows of
the 100 most recently created jokes of that category (`mostRecent`), the
rest being silently omitted. -/
theorem getJokesByCategoryId_default_limit_100_most_recent (db : DB)
    (categoryId : Nat) (hwf : db.WF)
    (hdist : (db.jokes.filter (fun j => j.category_id = categoryId)).Pairwise
      (fun a b => a.created_at ≠ b.created_at))
    (hbig : 100 <
      (db.jokes.filter (fun j => j.category_id = categoryId)).length) :
    TxModel.getJokesByCategoryId db categoryId none =
      TxModel.getJokesByCategoryId db categoryId (some 100) ∧
    (TxModel.getJokesByCategoryId db categoryId none).length = 100 ∧
    (∀ row ∈ TxModel.getJokesByCategoryId db categoryId none,
      ∃ j ∈ mostRecent db categoryId 100, j.id = row.id) ∧
    (∀ j ∈ mostRecent db categoryId 100,
      ∃ row ∈ TxModel.getJokesByCategoryId db categoryId none,
        row.id = j.id) := by
  obtain ⟨hpwC, hpwJ, hltC, hltJ, hfk⟩ := hwf
  have hne : db.jokes.filter (fun j => j.category_id = categoryId) ≠ [] := by
    intro h
    rw [h] at hbig
    simp at hbig
  obtain ⟨j0, hj0⟩ := List.exists_mem_of_ne_nil _ hne
  have hj0mem := (List.mem_filter.mp hj0).1
  have hj0cat : j0.category_id = categoryId := by
    have := (List.mem_filter.mp hj0).2
    simpa using this
  obtain ⟨c, hc, hcid⟩ := hfk j0 hj0mem
  have hcid2 : c.id = categoryId := by rw [hcid, hj0cat]
  have hccats : ∀ j ∈ db.jokes.filter (fun j => j.category_id = categoryId),
      (db.categories.filter (fun cc => cc.id = j.category_id)).map
        (fun cc => (j, cc)) = [(j, c)] := by
    intro j hj
    have hjcat : j.category_id = categoryId := by
      have := (List.mem_filter.mp hj).2
      simpa using this
    have hone : db.categories.filter (fun cc => cc.id = j.category_id) = [c] := by
      apply filter_eq_single_of_unique db.categories c hc hpwC
      · simp [hcid2, hjcat]
      · intro cc h
        simp at h
        rw [h, hjcat, hcid2]
    rw [hone]
    rfl
  have hflat : (db.jokes.filter (fun j => j.category_id = categoryId)).flatMap
      (fun j => (db.categories.filter (fun cc => cc.id = j.category_id)).map
        (fun cc => (j, cc))) =
      (db.jokes.filter (fun j => j.category_id = categoryId)).map
        (fun j => (j, c)) :=
    flatMap_eq_map_of_forall _ _ _ hccats
  have hperm : (TxModel.joinByCategoryId db categoryId).Perm
      ((db.jokes.filter (fun j => j.category_id = categoryId)).map
        (fun j => (j, c))) := by
    unfold TxModel.joinByCategoryId
    rw [hflat]
    exact sortBy_perm _ _
  have hsortedS : (TxModel.joinByCategoryId db categoryId).Pairwise
      (fun a b => b.1.created_at ≤ a.1.created_at) := by
    unfold TxModel.joinByCategoryId
    have hpw := sortBy_pairwise
      (fun a b : Joke × Category => decide (b.1.created_at ≤ a.1.created_at))
      (by
        intro a b
        rcases Nat.le_total b.1.created_at a.1.created_at with h | h
        · left; simpa
        · right; simpa)
      (by
        intro a b c2 hab hbc
        simp at hab hbc ⊢
        omega)
      ((db.jokes.filter (fun j => j.category_id = categoryId)).flatMap
        (fun j => (db.categories.filter (fun cc => cc.id = j.category_id)).map
          (fun cc => (j, cc))))
    exact hpw.imp (fun h => by simpa using h)
  have hkeyS : (TxModel.joinByCategoryId db categoryId).Pairwise
      (fun a b => a.1.created_at ≠ b.1.created_at) := by
    have hmap : (((db.jokes.filter
        (fun j => j.category_id = categoryId)).map
        (fun j => (j, c)))).Pairwise
        (fun a b => a.1.created_at ≠ b.1.created_at) :=
      hdist.map (fun j => (j, c)) (fun a b h => h)
    exact (List.Perm.pairwise_iff (fun h => Ne.symm h) hperm).mpr hmap
  have htransfer : ∀ x : Joke × Category,
      ((TxModel.joinByCategoryId db categoryId).filter
        (fun p => x.1.created_at < p.1.created_at)).length =
      ((db.jokes.filter (fun j => j.category_id = categoryId)).filter
        (fun j => x.1.created_at < j.created_at)).length := by
    intro x
    rw [(hperm.filter _).length_eq, List.filter_map, List.length_map]
    rfl
  have hlenS : (TxModel.joinByCategoryId db categoryId).length =
      (db.jokes.filter (fun j => j.category_id = categoryId)).length := by
    rw [hperm.length_eq, List.length_map]
  refine ⟨rfl, ?_, ?_, ?_⟩
  · unfold TxModel.getJokesByCategoryId
    rw [List.length_map, List.length_take, hlenS]
    simp only [Option.getD]
    omega
  · intro row hrow
    unfold TxModel.getJokesByCategoryId at hrow
    rcases List.mem_map.mp hrow with ⟨p, hpTake, hproj⟩
    have hpS : p ∈ (TxModel.joinByCategoryId db categoryId).take 100 := by
      simpa using hpTake
    rcases (mem_take_sorted_iff (fun q : Joke × Category => q.1.created_at)
        (TxModel.joinByCategoryId db categoryId) hsortedS hkeyS 100 p).mp hpS
      with ⟨hpmem, hprank⟩
    rcases List.mem_map.mp (hperm.mem_iff.mp hpmem) with ⟨j, hj, hjp⟩
    subst hjp
    rw [htransfer ((j, c))] at hprank
    refine ⟨j, ?_, ?_⟩
    · apply List.mem_filter.mpr
      refine ⟨hj, ?_⟩
      simpa using hprank
    · rw [← hproj]
  · intro j hj
    rcases List.mem_filter.mp hj with ⟨hjmem, hjrank⟩
    have hpmem : (j, c) ∈ TxModel.joinByCategoryId db categoryId :=
      hperm.mem_iff.mpr (List.mem_map.mpr ⟨j, hjmem, rfl⟩)
    have hrank : ((TxModel.joinByCategoryId db categoryId).filter
        (fun p => (j, c).1.created_at < p.1.created_at)).length < 100 := by
      rw [htransfer ((j, c))]
      simpa using hjrank
    have hpTake := (mem_take_sorted_iff
      (fun q : Joke × Category => q.1.created_at)
      (TxModel.joinByCategoryId db categoryId) hsortedS hkeyS 100 ((j, c))).mpr
      ⟨hpmem, hrank⟩
    refine ⟨⟨j.id, c.name, j.setup, j.delivery⟩, ?_, rfl⟩
    unfold TxModel.getJokesByCategoryId
    apply List.mem_map.mpr
    exact ⟨(j, c), by simpa using hpTake, rfl⟩

/-- A store whose category 1 holds 101 jokes with pairwise-distinct
creation times. -/
def dbManyJokes : DB :=
  ⟨[⟨1, "puns"⟩],
   (List.range 101).map (fun k => ⟨k + 1, 1, "s", "d", k⟩),
   2, 102, 101⟩

/-- Witness for C10 at a concrete input: 101 jokes in one category. -/
theorem getJokesByCategoryId_default_limit_100_most_recent_witness :
    (dbManyJokes.WF ∧
      (dbManyJokes.jokes.filter
        (fun j => j.category_id = 1)).Pairwise
        (fun a b => a.created_at ≠ b.created_at) ∧
      100 < (dbManyJokes.jokes.filter (fun j => j.category_id = 1)).length) ∧
    (TxModel.getJokesByCategoryId dbManyJokes 1 none =
      TxModel.getJokesByCategoryId dbManyJokes 1 (some 100) ∧
    (TxModel.getJokesByCategoryId dbManyJokes 1 none).length = 100 ∧
    (∀ row ∈ TxModel.getJokesByCategoryId dbManyJokes 1 none,
      ∃ j ∈ mostRecent dbManyJokes 1 100, j.id = row.id) ∧
    (∀ j ∈ mostRecent dbManyJokes 1 100,
      ∃ row ∈ TxModel.getJokesByCategoryId dbManyJokes 1 none,
        row.id = j.id)) :=
  ⟨⟨by decide, by decide, by decide⟩,
   getJokesByCategoryId_default_limit_100_most_recent dbManyJokes 1
     (by decide) (by decide) (by decide)⟩
